import Mathlib

/-!
Shallow embedding of the `impact-rs` collision library (`src/lib.rs`).

The crate computes ray-vs-rectangle and swept rectangle-vs-rectangle
intersection queries over the external `fixed32` fixed-point scalar `Fp`
(a signed 32-bit raw value with 16 fractional bits).  Following the spec's
interface description of the scalar, `Fp` is modelled as a wrapper around
an unbounded integer raw value at scale 2^16:

* addition / subtraction / negation are exact on raws;
* multiplication is `(a.raw * b.raw) >> 16` (arithmetic shift, i.e. floor
  division by 2^16);
* division is `(a.raw << 16) / b.raw` with Rust's truncated (`tdiv`)
  integer division;
* comparisons, `min`, `max` and `cmp` compare raws;
* `Fp::MIN` / `Fp::MAX` are the `i32` extreme raws, used by the library
  purely as sentinel values.
-/

def fpScale : Int := 65536

structure Fp where
  raw : Int
deriving DecidableEq, Repr

namespace Fp

def zero : Fp := ⟨0⟩
def one : Fp := ⟨fpScale⟩
def MIN : Fp := ⟨-2147483648⟩
def MAX : Fp := ⟨2147483647⟩

/-- Build the fixed-point value for an integer number of units. -/
def ofInt (n : Int) : Fp := ⟨n * fpScale⟩

instance : Add Fp := ⟨fun a b => ⟨a.raw + b.raw⟩⟩
instance : Sub Fp := ⟨fun a b => ⟨a.raw - b.raw⟩⟩
instance : Neg Fp := ⟨fun a => ⟨-a.raw⟩⟩
instance : Mul Fp := ⟨fun a b => ⟨Int.fdiv (a.raw * b.raw) fpScale⟩⟩
instance : Div Fp := ⟨fun a b => ⟨Int.tdiv (a.raw * fpScale) b.raw⟩⟩
instance : LT Fp := ⟨fun a b => a.raw < b.raw⟩
instance : LE Fp := ⟨fun a b => a.raw ≤ b.raw⟩

instance (a b : Fp) : Decidable (a < b) := inferInstanceAs (Decidable (a.raw < b.raw))
instance (a b : Fp) : Decidable (a ≤ b) := inferInstanceAs (Decidable (a.raw ≤ b.raw))

/-- Rust's `std::cmp::min`. -/
def min (a b : Fp) : Fp := if a ≤ b then a else b

/-- Rust's `std::cmp::max`. -/
def max (a b : Fp) : Fp := if b ≤ a then a else b

/-- Rust's three-way `Ord::cmp`. -/
def cmp (a b : Fp) : Ordering :=
  if a < b then .lt else if a = b then .eq else .gt

/-- Division of a fixed-point value by a plain integer (`size / 2` in the
source): exact raw division with Rust's truncation toward zero. -/
instance : HDiv Fp Int Fp := ⟨fun a n => ⟨Int.tdiv a.raw n⟩⟩

theorem ext_iff {a b : Fp} : a = b ↔ a.raw = b.raw := by
  cases a; cases b; simp

end Fp

/-- 2D vector of fixed-point scalars (external `fixed32_math::Vector`). -/
structure Vector where
  x : Fp
  y : Fp
deriving DecidableEq, Repr

namespace Vector

def zero : Vector := ⟨Fp.zero, Fp.zero⟩

/-- `Vector::default()`. -/
def default : Vector := zero

def up : Vector := ⟨Fp.zero, Fp.one⟩
def down : Vector := ⟨Fp.zero, -Fp.one⟩
def left : Vector := ⟨-Fp.one, Fp.zero⟩
def right : Vector := ⟨Fp.one, Fp.zero⟩

instance : Add Vector := ⟨fun a b => ⟨a.x + b.x, a.y + b.y⟩⟩
instance : Sub Vector := ⟨fun a b => ⟨a.x - b.x, a.y - b.y⟩⟩

/-- Scalar times vector, componentwise fixed-point multiplication. -/
instance : HMul Fp Vector Vector := ⟨fun t v => ⟨t * v.x, t * v.y⟩⟩

/-- Vector divided by a plain integer, componentwise. -/
instance : HDiv Vector Int Vector := ⟨fun v n => ⟨v.x / n, v.y / n⟩⟩

end Vector

/-- Axis-aligned rectangle: lower-left corner and size
(external `fixed32_math::Rect`). -/
structure Rect where
  pos : Vector
  size : Vector
deriving DecidableEq, Repr

/-- Result record returned by `ray_vs_rect` (`src/lib.rs: RayIntersectionResult`). -/
structure RayIntersectionResult where
  contact_point : Vector
  contact_normal : Vector
  closest_time : Fp
deriving DecidableEq, Repr

/-- Per-axis slab computation of `ray_vs_rect` (`src/lib.rs` lines 169-205):
the `match ray_direction.a.cmp(&Fp::zero())` block for one axis, returning
`none` for the early `return None` of the zero-direction branch and
otherwise the `(time_near, time_far)` pair for that axis.  In the `gt`/`lt`
branches `Fp.one / dir` is the corresponding component of the
`inverted_direction` vector computed at lines 156-167 (whose zero-direction
arm is never read). -/
def axisSlab (dir o pos size : Fp) : Option (Fp × Fp) :=
  match Fp.cmp dir Fp.zero with
  | .gt => some ((pos - o) * (Fp.one / dir), (pos + size - o) * (Fp.one / dir))
  | .lt => some ((pos + size - o) * (Fp.one / dir), (pos - o) * (Fp.one / dir))
  | .eq =>
    if o < pos ∨ pos + size < o then none
    else some (Fp.MIN, Fp.MAX)

/-- The in-place swap of `time_near`/`time_far` on one axis
(`src/lib.rs` lines 208-214): sort the pair so the first component is the
smaller. -/
def sortTimes (p : Fp × Fp) : Fp × Fp :=
  if p.2 < p.1 then (p.2, p.1) else p

/-- Contact-normal selection of `ray_vs_rect` (`src/lib.rs` lines 230-250):
`match time_near.x.cmp(&time_near.y)` on the post-swap entry times, with the
`Equal` arm leaving the `Vector::default()` zero normal. -/
def selectNormal (nearX nearY dirX dirY : Fp) : Vector :=
  match Fp.cmp nearX nearY with
  | .gt => if Fp.zero < dirX then Vector.right else Vector.left
  | .lt => if Fp.zero < dirY then Vector.up else Vector.down
  | .eq => Vector.default

/-- `ray_vs_rect` (`src/lib.rs` lines 144-257). -/
def ray_vs_rect (ray_origin ray_direction : Vector) (target : Rect) :
    Option RayIntersectionResult :=
  if ray_direction.x = Fp.zero ∧ ray_direction.y = Fp.zero then none
  else
    match axisSlab ray_direction.x ray_origin.x target.pos.x target.size.x,
          axisSlab ray_direction.y ray_origin.y target.pos.y target.size.y with
    | some px, some py =>
      let sx := sortTimes px
      let sy := sortTimes py
      if sy.2 ≤ sx.1 ∨ sx.2 ≤ sy.1 then none
      else if Fp.min sx.2 sy.2 < Fp.zero then none
      else
        let closest_time := Fp.max sx.1 sy.1
        let contact_point := ray_origin + closest_time * ray_direction
        let contact_normal :=
          selectNormal sx.1 sy.1 ray_direction.x ray_direction.y
        some ⟨contact_point, contact_normal, closest_time⟩
    | _, _ => none

/-- `swept_rect_vs_rect` (`src/lib.rs` lines 74-95). -/
def swept_rect_vs_rect (origin target : Rect) (delta : Vector) :
    Option RayIntersectionResult :=
  let expanded_target : Rect :=
    ⟨target.pos - origin.size / (2 : Int), target.size + origin.size⟩
  let origin_point := origin.pos + origin.size
  match ray_vs_rect origin_point delta expanded_target with
  | some result =>
    if Fp.zero ≤ result.closest_time ∧ result.closest_time < Fp.one then
      some result
    else none
  | none => none

/-- `ray_vs_rect_vertical_time` (`src/lib.rs` lines 366-386).  Note the
closed orthogonal bound check `ray_origin.x > pos.x + size.x`. -/
def ray_vs_rect_vertical_time (ray_origin : Vector) (ray_length_in_y : Fp)
    (target_rect : Rect) : Option Fp :=
  if ray_length_in_y = Fp.zero then none
  else if ray_origin.x < target_rect.pos.x ∨
      target_rect.pos.x + target_rect.size.x < ray_origin.x then none
  else
    some (if Fp.zero < ray_length_in_y then
        (target_rect.pos.y - ray_origin.y) / ray_length_in_y
      else
        (target_rect.pos.y + target_rect.size.y - ray_origin.y) / ray_length_in_y)

/-- `swept_rect_vs_rect_vertical_time` (`src/lib.rs` lines 304-320). -/
def swept_rect_vs_rect_vertical_time (origin target : Rect) (y_delta : Fp) :
    Option Fp :=
  let combined_target_rect : Rect := ⟨target.pos, target.size + origin.size⟩
  let ray_origin := origin.pos + origin.size
  match ray_vs_rect_vertical_time ray_origin y_delta combined_target_rect with
  | some time => if Fp.zero ≤ time ∧ time < Fp.one then some time else none
  | none => none

/-- `ray_vs_rect_horizontal_time` (`src/lib.rs` lines 497-517).  Note the
half-open orthogonal bound check `ray_origin.y >= pos.y + size.y`. -/
def ray_vs_rect_horizontal_time (ray_origin : Vector) (ray_length_in_x : Fp)
    (target_rect : Rect) : Option Fp :=
  if ray_length_in_x = Fp.zero then none
  else if ray_origin.y < target_rect.pos.y ∨
      target_rect.pos.y + target_rect.size.y ≤ ray_origin.y then none
  else
    some (if Fp.zero < ray_length_in_x then
        (target_rect.pos.x - ray_origin.x) / ray_length_in_x
      else
        (target_rect.pos.x + target_rect.size.x - ray_origin.x) / ray_length_in_x)

/-- `swept_rect_vs_rect_horizontal_time` (`src/lib.rs` lines 435-451). -/
def swept_rect_vs_rect_horizontal_time (origin target : Rect) (x_delta : Fp) :
    Option Fp :=
  let expanded_target : Rect := ⟨target.pos, target.size + origin.size⟩
  let origin_point := origin.pos + origin.size
  match ray_vs_rect_horizontal_time origin_point x_delta expanded_target with
  | some time => if Fp.zero ≤ time ∧ time < Fp.one then some time else none
  | none => none

/-! ### Checked-division variants

Instrumented copies of the functions above in which every fixed-point
division site goes through `fpDivChecked`: the outer `Option` is `none`
exactly when some division by zero was attempted during evaluation, and
otherwise holds the plain function's result.  Following the source, the
reciprocal of each direction component is computed (under its own zero
guard) before the per-axis matches. -/

/-- Division that reports an attempted division by zero as `none`. -/
def fpDivChecked (a b : Fp) : Option Fp :=
  if b = Fp.zero then none else some (a / b)

/-- The guarded reciprocal of one component of `inverted_direction`
(`src/lib.rs` lines 156-167), with the division instrumented. -/
def invertedChecked (dir : Fp) : Option Fp :=
  if dir = Fp.zero then some Fp.zero else fpDivChecked Fp.one dir

/-- Per-axis slab computation taking the precomputed reciprocal. -/
def axisSlabWith (dir o pos size inv : Fp) : Option (Fp × Fp) :=
  match Fp.cmp dir Fp.zero with
  | .gt => some ((pos - o) * inv, (pos + size - o) * inv)
  | .lt => some ((pos + size - o) * inv, (pos - o) * inv)
  | .eq =>
    if o < pos ∨ pos + size < o then none
    else some (Fp.MIN, Fp.MAX)

/-- `ray_vs_rect` with every division instrumented. -/
def ray_vs_rect_checked (ray_origin ray_direction : Vector) (target : Rect) :
    Option (Option RayIntersectionResult) :=
  if ray_direction.x = Fp.zero ∧ ray_direction.y = Fp.zero then some none
  else
    (invertedChecked ray_direction.x).bind fun invx =>
    (invertedChecked ray_direction.y).bind fun invy =>
    some (
      match axisSlabWith ray_direction.x ray_origin.x target.pos.x target.size.x invx,
            axisSlabWith ray_direction.y ray_origin.y target.pos.y target.size.y invy with
      | some px, some py =>
        let sx := sortTimes px
        let sy := sortTimes py
        if sy.2 ≤ sx.1 ∨ sx.2 ≤ sy.1 then none
        else if Fp.min sx.2 sy.2 < Fp.zero then none
        else
          let closest_time := Fp.max sx.1 sy.1
          some ⟨ray_origin + closest_time * ray_direction,
            selectNormal sx.1 sy.1 ray_direction.x ray_direction.y, closest_time⟩
      | _, _ => none)

/-- `ray_vs_rect_horizontal_time` with its division instrumented. -/
def ray_vs_rect_horizontal_time_checked (ray_origin : Vector)
    (ray_length_in_x : Fp) (target_rect : Rect) : Option (Option Fp) :=
  if ray_length_in_x = Fp.zero then some none
  else if ray_origin.y < target_rect.pos.y ∨
      target_rect.pos.y + target_rect.size.y ≤ ray_origin.y then some none
  else if Fp.zero < ray_length_in_x then
    (fpDivChecked (target_rect.pos.x - ray_origin.x) ray_length_in_x).map some
  else
    (fpDivChecked (target_rect.pos.x + target_rect.size.x - ray_origin.x)
      ray_length_in_x).map some

/-- `ray_vs_rect_vertical_time` with its division instrumented. -/
def ray_vs_rect_vertical_time_checked (ray_origin : Vector)
    (ray_length_in_y : Fp) (target_rect : Rect) : Option (Option Fp) :=
  if ray_length_in_y = Fp.zero then some none
  else if ray_origin.x < target_rect.pos.x ∨
      target_rect.pos.x + target_rect.size.x < ray_origin.x then some none
  else if Fp.zero < ray_length_in_y then
    (fpDivChecked (target_rect.pos.y - ray_origin.y) ray_length_in_y).map some
  else
    (fpDivChecked (target_rect.pos.y + target_rect.size.y - ray_origin.y)
      ray_length_in_y).map some

/-! ### Axis transposition -/

/-- Exchange the two components of a vector. -/
def swapVec (v : Vector) : Vector := ⟨v.y, v.x⟩

/-- Exchange the axes of a rectangle. -/
def swapRect (r : Rect) : Rect := ⟨swapVec r.pos, swapVec r.size⟩

/-- Transpose an intersection result: both vectors swap components, the
time is unchanged. -/
def swapResult (r : RayIntersectionResult) : RayIntersectionResult :=
  ⟨swapVec r.contact_point, swapVec r.contact_normal, r.closest_time⟩

/-! ### Basic lemmas about the fixed-point order -/

theorem Fp.lt_iff {a b : Fp} : a < b ↔ a.raw < b.raw := Iff.rfl

theorem Fp.le_iff {a b : Fp} : a ≤ b ↔ a.raw ≤ b.raw := Iff.rfl

theorem Fp.add_raw (a b : Fp) : (a + b).raw = a.raw + b.raw := rfl

theorem Fp.zero_raw : Fp.zero.raw = 0 := rfl

theorem Fp.min_comm (a b : Fp) : Fp.min a b = Fp.min b a := by
  simp only [Fp.min, Fp.le_iff]
  split_ifs with h1 h2 h2 <;>
    first
      | rfl
      | (exact Fp.ext_iff.mpr (by omega))

theorem Fp.max_comm (a b : Fp) : Fp.max a b = Fp.max b a := by
  simp only [Fp.max, Fp.le_iff]
  split_ifs with h1 h2 h2 <;>
    first
      | rfl
      | (exact Fp.ext_iff.mpr (by omega))

/-- C8: for ray origin `(1, 2)`, ray direction `(3, 4)` and target rectangle
at position `(5, 6)` with size `(7, 8)`, `ray_vs_rect` returns a result
whose `closest_time` is the fixed-point value of `1.33332` (i.e. raw
`⌊1.33332 * 2^16⌋ = 87380`, approximately `4/3`), and this time exceeds
`1`, so `ray_vs_rect` itself performs no `[0, 1)` clamping. -/
theorem spec_c8_reference_scenario :
    (ray_vs_rect ⟨Fp.ofInt 1, Fp.ofInt 2⟩ ⟨Fp.ofInt 3, Fp.ofInt 4⟩
        ⟨⟨Fp.ofInt 5, Fp.ofInt 6⟩, ⟨Fp.ofInt 7, Fp.ofInt 8⟩⟩).map
        RayIntersectionResult.closest_time =
      some ⟨Int.tdiv (133332 * fpScale) 100000⟩ ∧
    (⟨Int.tdiv (133332 * fpScale) 100000⟩ : Fp) = ⟨87380⟩ ∧
    Fp.one < (⟨87380⟩ : Fp) := by
  refine ⟨rfl, rfl, by decide⟩

/-- C2: `swept_rect_vs_rect origin target delta` succeeds with result `r`
exactly when `ray_vs_rect` cast from `origin.pos + origin.size` with
direction `delta` against the expanded rectangle
`{pos := target.pos - origin.size / 2, size := target.size + origin.size}`
returns `r` and `r.closest_time` lies in `[0, 1)` (the lower bound `0`
included); any inner miss or time outside `[0, 1)` yields `none`. -/
theorem spec_c2_swept_wrapper (origin target : Rect) (delta : Vector)
    (r : RayIntersectionResult) :
    swept_rect_vs_rect origin target delta = some r ↔
      (ray_vs_rect (origin.pos + origin.size) delta
          ⟨target.pos - origin.size / (2 : Int), target.size + origin.size⟩ =
            some r ∧
        Fp.zero ≤ r.closest_time ∧ r.closest_time < Fp.one) := by
  have hdef : swept_rect_vs_rect origin target delta =
      match ray_vs_rect (origin.pos + origin.size) delta
          ⟨target.pos - origin.size / (2 : Int), target.size + origin.size⟩ with
      | some result =>
        if Fp.zero ≤ result.closest_time ∧ result.closest_time < Fp.one then
          some result
        else none
      | none => none := rfl
  rw [hdef]
  cases h : ray_vs_rect (origin.pos + origin.size) delta
      ⟨target.pos - origin.size / (2 : Int), target.size + origin.size⟩ with
  | none => simp
  | some res =>
    have hred : (match (some res : Option RayIntersectionResult) with
        | some result =>
          if Fp.zero ≤ result.closest_time ∧ result.closest_time < Fp.one then
            some result
          else none
        | none => none) =
        (if Fp.zero ≤ res.closest_time ∧ res.closest_time < Fp.one then
          some res
        else none) := rfl
    rw [hred]
    by_cases hc : Fp.zero ≤ res.closest_time ∧ res.closest_time < Fp.one
    · rw [if_pos hc]
      constructor
      · rintro ⟨rfl⟩
        exact ⟨rfl, hc⟩
      · rintro ⟨hr, _⟩
        exact hr
    · rw [if_neg hc]
      constructor
      · intro hcontra
        exact absurd hcontra (by simp)
      · rintro ⟨hr, h0, h1⟩
        cases hr
        exact absurd ⟨h0, h1⟩ hc

/-- C6: `ray_vs_rect_horizontal_time o L r` returns `none` exactly when `L`
is zero or `o.y` lies outside the half-open band
`[r.pos.y, r.pos.y + r.size.y)`; otherwise it returns the unclamped signed
time to the near x-boundary: `(r.pos.x - o.x) / L` for `L > 0` and
`(r.pos.x + r.size.x - o.x) / L` for `L < 0`, with no `[0, 1)` filtering. -/
theorem spec_c6_horizontal_axis_query (o : Vector) (L : Fp) (r : Rect) :
    (ray_vs_rect_horizontal_time o L r = none ↔
      (L = Fp.zero ∨ o.y < r.pos.y ∨ r.pos.y + r.size.y ≤ o.y)) ∧
    (Fp.zero < L → r.pos.y ≤ o.y → o.y < r.pos.y + r.size.y →
      ray_vs_rect_horizontal_time o L r = some ((r.pos.x - o.x) / L)) ∧
    (L < Fp.zero → r.pos.y ≤ o.y → o.y < r.pos.y + r.size.y →
      ray_vs_rect_horizontal_time o L r =
        some ((r.pos.x + r.size.x - o.x) / L)) := by
  unfold ray_vs_rect_horizontal_time
  refine ⟨?_, ?_, ?_⟩
  · by_cases h1 : L = Fp.zero
    · simp [h1]
    · by_cases h2 : o.y < r.pos.y ∨ r.pos.y + r.size.y ≤ o.y
      · simp [h1, h2]
      · simp [h1, h2]
  · intro hL hlo hhi
    have h1 : ¬L = Fp.zero := by
      intro h
      rw [h] at hL
      exact absurd hL (by simp [Fp.lt_iff])
    have h2 : ¬(o.y < r.pos.y ∨ r.pos.y + r.size.y ≤ o.y) := by
      simp only [Fp.lt_iff, Fp.le_iff] at hlo hhi ⊢
      omega
    simp [h1, h2, hL]
  · intro hL hlo hhi
    have h1 : ¬L = Fp.zero := by
      intro h
      rw [h] at hL
      exact absurd hL (by simp [Fp.lt_iff])
    have h2 : ¬(o.y < r.pos.y ∨ r.pos.y + r.size.y ≤ o.y) := by
      simp only [Fp.lt_iff, Fp.le_iff] at hlo hhi ⊢
      omega
    have h3 : ¬Fp.zero < L := by
      simp only [Fp.lt_iff, Fp.zero_raw] at hL ⊢
      omega
    simp [h1, h2, h3]

/-- Witness for C6 at concrete inputs: a rightward query inside the band
returns the near-left-boundary time, a leftward one the near-right-boundary
time. -/
theorem spec_c6_witness :
    ray_vs_rect_horizontal_time ⟨Fp.ofInt 0, Fp.ofInt 1⟩ (Fp.ofInt 2)
        ⟨⟨Fp.ofInt 5, Fp.ofInt 0⟩, ⟨Fp.ofInt 3, Fp.ofInt 2⟩⟩ =
      some ((Fp.ofInt 5 - Fp.ofInt 0) / Fp.ofInt 2) ∧
    ray_vs_rect_horizontal_time ⟨Fp.ofInt 9, Fp.ofInt 1⟩ (Fp.ofInt (-2))
        ⟨⟨Fp.ofInt 5, Fp.ofInt 0⟩, ⟨Fp.ofInt 3, Fp.ofInt 2⟩⟩ =
      some ((Fp.ofInt 5 + Fp.ofInt 3 - Fp.ofInt 9) / Fp.ofInt (-2)) :=
  ⟨(spec_c6_horizontal_axis_query ⟨Fp.ofInt 0, Fp.ofInt 1⟩ (Fp.ofInt 2)
      ⟨⟨Fp.ofInt 5, Fp.ofInt 0⟩, ⟨Fp.ofInt 3, Fp.ofInt 2⟩⟩).2.1
      (by decide) (by decide) (by decide),
   (spec_c6_horizontal_axis_query ⟨Fp.ofInt 9, Fp.ofInt 1⟩ (Fp.ofInt (-2))
      ⟨⟨Fp.ofInt 5, Fp.ofInt 0⟩, ⟨Fp.ofInt 3, Fp.ofInt 2⟩⟩).2.2
      (by decide) (by decide) (by decide)⟩

theorem Fp.cmp_eq_lt {a b : Fp} : Fp.cmp a b = .lt ↔ a < b := by
  unfold Fp.cmp
  split_ifs with h1 h2 <;> simp [h1]

theorem Fp.cmp_eq_eq {a b : Fp} : Fp.cmp a b = .eq ↔ a = b := by
  unfold Fp.cmp
  split_ifs with h1 h2 <;> (simp_all [Fp.lt_iff, Fp.ext_iff]; try omega)

theorem Fp.cmp_eq_gt {a b : Fp} : Fp.cmp a b = .gt ↔ b < a := by
  unfold Fp.cmp
  split_ifs with h1 h2 <;> (simp_all [Fp.lt_iff, Fp.ext_iff]; try omega)

theorem swapVec_x (v : Vector) : (swapVec v).x = v.y := rfl

theorem swapVec_y (v : Vector) : (swapVec v).y = v.x := rfl

theorem swapRect_pos (r : Rect) : (swapRect r).pos = swapVec r.pos := rfl

theorem swapRect_size (r : Rect) : (swapRect r).size = swapVec r.size := rfl

/-- C4 counterexample: at ray origin `(0, 2)`, length `1`, rectangle at
`(5, 0)` with size `(3, 2)`, the horizontal query rejects because its
orthogonal bound check is half-open (`o.y = pos.y + size.y` fails `≥`),
while the axis-swapped vertical query accepts the same geometry (its check
is closed, `>`), returning time `5`; so the two axis queries do not agree
under transposition. -/
theorem spec_c4_counterexample :
    ray_vs_rect_horizontal_time ⟨Fp.ofInt 0, Fp.ofInt 2⟩ (Fp.ofInt 1)
        ⟨⟨Fp.ofInt 5, Fp.ofInt 0⟩, ⟨Fp.ofInt 3, Fp.ofInt 2⟩⟩ = none ∧
    ray_vs_rect_vertical_time
        (swapVec ⟨Fp.ofInt 0, Fp.ofInt 2⟩) (Fp.ofInt 1)
        (swapRect ⟨⟨Fp.ofInt 5, Fp.ofInt 0⟩, ⟨Fp.ofInt 3, Fp.ofInt 2⟩⟩) =
      some (Fp.ofInt 5) ∧
    (⟨Fp.ofInt 0, Fp.ofInt 2⟩ : Vector).y = Fp.ofInt 0 + Fp.ofInt 2 := by
  refine ⟨rfl, rfl, rfl⟩

/-- C4 amended: the two axis-time queries agree under transposition at
every input whose orthogonal coordinate is not exactly on the upper
boundary `pos + size` of the target's extent; on that boundary the
horizontal query (half-open check, `≥`) rejects while the vertical query
(closed check, `>`) accepts. -/
theorem spec_c4_amended (o : Vector) (L : Fp) (r : Rect)
    (h : o.y ≠ r.pos.y + r.size.y) :
    ray_vs_rect_horizontal_time o L r =
      ray_vs_rect_vertical_time (swapVec o) L (swapRect r) := by
  simp only [ray_vs_rect_horizontal_time, ray_vs_rect_vertical_time,
    swapRect_pos, swapRect_size, swapVec_x, swapVec_y]
  by_cases h1 : L = Fp.zero
  · simp [h1]
  · rw [if_neg h1, if_neg h1]
    have hraw : o.y.raw ≠ (r.pos.y + r.size.y).raw := fun hr =>
      h (Fp.ext_iff.mpr hr)
    by_cases h2 : o.y < r.pos.y ∨ r.pos.y + r.size.y ≤ o.y
    · have h2' : o.y < r.pos.y ∨ r.pos.y + r.size.y < o.y := by
        simp only [Fp.lt_iff, Fp.le_iff] at h2 ⊢
        omega
      rw [if_pos h2, if_pos h2']
    · have h2' : ¬(o.y < r.pos.y ∨ r.pos.y + r.size.y < o.y) := by
        simp only [Fp.lt_iff, Fp.le_iff] at h2 ⊢
        omega
      rw [if_neg h2, if_neg h2']

/-- Witness for the amended C4 at a concrete off-boundary input. -/
theorem spec_c4_witness :
    ray_vs_rect_horizontal_time ⟨Fp.ofInt 0, Fp.ofInt 1⟩ (Fp.ofInt 1)
        ⟨⟨Fp.ofInt 5, Fp.ofInt 0⟩, ⟨Fp.ofInt 3, Fp.ofInt 2⟩⟩ =
      ray_vs_rect_vertical_time (swapVec ⟨Fp.ofInt 0, Fp.ofInt 1⟩) (Fp.ofInt 1)
        (swapRect ⟨⟨Fp.ofInt 5, Fp.ofInt 0⟩, ⟨Fp.ofInt 3, Fp.ofInt 2⟩⟩) :=
  spec_c4_amended ⟨Fp.ofInt 0, Fp.ofInt 1⟩ (Fp.ofInt 1)
    ⟨⟨Fp.ofInt 5, Fp.ofInt 0⟩, ⟨Fp.ofInt 3, Fp.ofInt 2⟩⟩ (by decide)

theorem axisSlab_zero (o pos size : Fp) :
    axisSlab Fp.zero o pos size =
      if o < pos ∨ pos + size < o then none else some (Fp.MIN, Fp.MAX) := rfl

theorem ray_vs_rect_zeroX_outside (o d : Vector) (t : Rect)
    (hdx : d.x = Fp.zero)
    (hout : o.x < t.pos.x ∨ t.pos.x + t.size.x < o.x) :
    ray_vs_rect o d t = none := by
  unfold ray_vs_rect
  by_cases hg : d.x = Fp.zero ∧ d.y = Fp.zero
  · rw [if_pos hg]
  · rw [if_neg hg]
    have hx : axisSlab d.x o.x t.pos.x t.size.x = none := by
      rw [hdx, axisSlab_zero, if_pos hout]
    rw [hx]

theorem ray_vs_rect_zeroY_outside (o d : Vector) (t : Rect)
    (hdy : d.y = Fp.zero)
    (hout : o.y < t.pos.y ∨ t.pos.y + t.size.y < o.y) :
    ray_vs_rect o d t = none := by
  unfold ray_vs_rect
  by_cases hg : d.x = Fp.zero ∧ d.y = Fp.zero
  · rw [if_pos hg]
  · rw [if_neg hg]
    have hy : axisSlab d.y o.y t.pos.y t.size.y = none := by
      rw [hdy, axisSlab_zero, if_pos hout]
    rw [hy]
    cases axisSlab d.x o.x t.pos.x t.size.x <;> rfl

/-- C3 counterexample.  First input: rectangle at `(0, 0)` with size
`(2, 2)`, ray origin `(2, -1)` (its fixed x-coordinate `2` equals
`pos.x + size.x`, outside the claimed half-open extent `[0, 2)`), direction
`(0, 1)`: the call nevertheless accepts, returning a hit at `(2, 0)` with
time `1` — the code's zero-direction bound check is closed, not half-open.
Second input: origin `(1, 5)` has its fixed x-coordinate inside the extent
yet the call rejects (the rectangle lies behind the ray), refuting the
claimed "accepts if and only if" in its other direction. -/
theorem spec_c3_counterexample :
    ((⟨Fp.ofInt 2, Fp.ofInt (-1)⟩ : Vector).x = Fp.ofInt 0 + Fp.ofInt 2 ∧
      ray_vs_rect ⟨Fp.ofInt 2, Fp.ofInt (-1)⟩ ⟨Fp.zero, Fp.ofInt 1⟩
          ⟨⟨Fp.ofInt 0, Fp.ofInt 0⟩, ⟨Fp.ofInt 2, Fp.ofInt 2⟩⟩ =
        some ⟨⟨Fp.ofInt 2, Fp.ofInt 0⟩, Vector.up, Fp.one⟩) ∧
    (Fp.ofInt 0 ≤ Fp.ofInt 1 ∧ Fp.ofInt 1 < Fp.ofInt 0 + Fp.ofInt 2 ∧
      ray_vs_rect ⟨Fp.ofInt 1, Fp.ofInt 5⟩ ⟨Fp.zero, Fp.ofInt 1⟩
          ⟨⟨Fp.ofInt 0, Fp.ofInt 0⟩, ⟨Fp.ofInt 2, Fp.ofInt 2⟩⟩ = none) := by
  refine ⟨⟨rfl, rfl⟩, by decide, by decide, rfl⟩

/-- C3 amended: for a ray with zero direction on one axis, the call
rejects whenever the ray's fixed coordinate on that axis lies outside the
target's **closed** extent `[pos, pos + size]` (regardless of the other
axis), a successful call implies the coordinate lies in that closed
extent (so the boundary `pos + size` is accepted, not rejected), and for a
coordinate inside the closed extent that axis receives the sentinel bounds
`time_near = FixedScalar::MIN`, `time_far = FixedScalar::MAX`; acceptance
is then determined by the other axis. -/
theorem spec_c3_amended (o d : Vector) (t : Rect) :
    (d.x = Fp.zero → (o.x < t.pos.x ∨ t.pos.x + t.size.x < o.x) →
      ray_vs_rect o d t = none) ∧
    (d.x = Fp.zero → ∀ r, ray_vs_rect o d t = some r →
      t.pos.x ≤ o.x ∧ o.x ≤ t.pos.x + t.size.x) ∧
    (d.x = Fp.zero → t.pos.x ≤ o.x → o.x ≤ t.pos.x + t.size.x →
      axisSlab d.x o.x t.pos.x t.size.x = some (Fp.MIN, Fp.MAX)) ∧
    (d.y = Fp.zero → (o.y < t.pos.y ∨ t.pos.y + t.size.y < o.y) →
      ray_vs_rect o d t = none) ∧
    (d.y = Fp.zero → ∀ r, ray_vs_rect o d t = some r →
      t.pos.y ≤ o.y ∧ o.y ≤ t.pos.y + t.size.y) ∧
    (d.y = Fp.zero → t.pos.y ≤ o.y → o.y ≤ t.pos.y + t.size.y →
      axisSlab d.y o.y t.pos.y t.size.y = some (Fp.MIN, Fp.MAX)) := by
  refine ⟨ray_vs_rect_zeroX_outside o d t, ?_, ?_,
    ray_vs_rect_zeroY_outside o d t, ?_, ?_⟩
  · intro hdx r hsome
    by_contra hnot
    have hout : o.x < t.pos.x ∨ t.pos.x + t.size.x < o.x := by
      simp only [not_and_or, Fp.lt_iff, Fp.le_iff] at hnot ⊢
      omega
    rw [ray_vs_rect_zeroX_outside o d t hdx hout] at hsome
    exact Option.noConfusion hsome
  · intro hdx hlo hhi
    rw [hdx, axisSlab_zero, if_neg]
    simp only [not_or, Fp.lt_iff, Fp.le_iff] at hlo hhi ⊢
    omega
  · intro hdy r hsome
    by_contra hnot
    have hout : o.y < t.pos.y ∨ t.pos.y + t.size.y < o.y := by
      simp only [not_and_or, Fp.lt_iff, Fp.le_iff] at hnot ⊢
      omega
    rw [ray_vs_rect_zeroY_outside o d t hdy hout] at hsome
    exact Option.noConfusion hsome
  · intro hdy hlo hhi
    rw [hdy, axisSlab_zero, if_neg]
    simp only [not_or, Fp.lt_iff, Fp.le_iff] at hlo hhi ⊢
    omega

/-- Witness for the amended C3: a vertical ray left of the rectangle is
rejected, and an interior fixed coordinate receives the sentinel bounds. -/
theorem spec_c3_witness :
    ray_vs_rect ⟨Fp.ofInt 5, Fp.ofInt 0⟩ ⟨Fp.zero, Fp.ofInt 1⟩
        ⟨⟨Fp.ofInt 0, Fp.ofInt 0⟩, ⟨Fp.ofInt 2, Fp.ofInt 2⟩⟩ = none ∧
    axisSlab Fp.zero (Fp.ofInt 1) (Fp.ofInt 0) (Fp.ofInt 2) =
      some (Fp.MIN, Fp.MAX) :=
  ⟨(spec_c3_amended ⟨Fp.ofInt 5, Fp.ofInt 0⟩ ⟨Fp.zero, Fp.ofInt 1⟩
      ⟨⟨Fp.ofInt 0, Fp.ofInt 0⟩, ⟨Fp.ofInt 2, Fp.ofInt 2⟩⟩).1 rfl
      (by decide),
   (spec_c3_amended ⟨Fp.ofInt 1, Fp.ofInt 0⟩ ⟨Fp.zero, Fp.ofInt 1⟩
      ⟨⟨Fp.ofInt 0, Fp.ofInt 0⟩, ⟨Fp.ofInt 2, Fp.ofInt 2⟩⟩).2.2.1 rfl
      (by decide) (by decide)⟩

theorem invertedChecked_eq (dir : Fp) :
    invertedChecked dir =
      some (if dir = Fp.zero then Fp.zero else Fp.one / dir) := by
  by_cases h : dir = Fp.zero <;> simp [invertedChecked, fpDivChecked, h]

theorem axisSlabWith_inv (dir o pos size : Fp) :
    axisSlabWith dir o pos size
        (if dir = Fp.zero then Fp.zero else Fp.one / dir) =
      axisSlab dir o pos size := by
  cases hc : Fp.cmp dir Fp.zero with
  | lt =>
    have h : ¬dir = Fp.zero := by
      have := Fp.cmp_eq_lt.mp hc
      simp only [Fp.lt_iff, Fp.zero_raw, Fp.ext_iff] at this ⊢
      omega
    simp [axisSlabWith, axisSlab, hc, h]
  | eq => simp [axisSlabWith, axisSlab, hc]
  | gt =>
    have h : ¬dir = Fp.zero := by
      have := Fp.cmp_eq_gt.mp hc
      simp only [Fp.lt_iff, Fp.zero_raw, Fp.ext_iff] at this ⊢
      omega
    simp [axisSlabWith, axisSlab, hc, h]

/-- C9: total queries, no division by zero.  The instrumented variants (in
which every fixed-point division reports a zero divisor as an outer
`none`) always return `some` of the plain function's result: under every
input, no division with zero divisor is ever attempted — each reciprocal
of a direction component is computed only under its nonzero guard, and the
axis-time queries divide only after the zero-length early return.
Moreover `ray_vs_rect` returns `none` for the exact zero direction vector
before any per-axis computation. -/
theorem spec_c9_no_div_by_zero (o d : Vector) (t : Rect) (L : Fp) :
    ray_vs_rect_checked o d t = some (ray_vs_rect o d t) ∧
    ray_vs_rect_horizontal_time_checked o L t =
      some (ray_vs_rect_horizontal_time o L t) ∧
    ray_vs_rect_vertical_time_checked o L t =
      some (ray_vs_rect_vertical_time o L t) ∧
    (∀ o' : Vector, ∀ t' : Rect,
      ray_vs_rect o' ⟨Fp.zero, Fp.zero⟩ t' = none) := by
  refine ⟨?_, ?_, ?_, ?_⟩
  · unfold ray_vs_rect_checked ray_vs_rect
    by_cases hg : d.x = Fp.zero ∧ d.y = Fp.zero
    · rw [if_pos hg, if_pos hg]
    · rw [if_neg hg, if_neg hg, invertedChecked_eq, invertedChecked_eq,
        Option.some_bind, Option.some_bind, axisSlabWith_inv, axisSlabWith_inv]
  · unfold ray_vs_rect_horizontal_time_checked ray_vs_rect_horizontal_time
    by_cases h1 : L = Fp.zero
    · rw [if_pos h1, if_pos h1]
    · rw [if_neg h1, if_neg h1]
      by_cases h2 : o.y < t.pos.y ∨ t.pos.y + t.size.y ≤ o.y
      · rw [if_pos h2, if_pos h2]
      · rw [if_neg h2, if_neg h2]
        by_cases h3 : Fp.zero < L
        · rw [if_pos h3]
          simp [fpDivChecked, h1, if_pos h3]
        · rw [if_neg h3]
          simp [fpDivChecked, h1, if_neg h3]
  · unfold ray_vs_rect_vertical_time_checked ray_vs_rect_vertical_time
    by_cases h1 : L = Fp.zero
    · rw [if_pos h1, if_pos h1]
    · rw [if_neg h1, if_neg h1]
      by_cases h2 : o.x < t.pos.x ∨ t.pos.x + t.size.x < o.x
      · rw [if_pos h2, if_pos h2]
      · rw [if_neg h2, if_neg h2]
        by_cases h3 : Fp.zero < L
        · rw [if_pos h3]
          simp [fpDivChecked, h1, if_pos h3]
        · rw [if_neg h3]
          simp [fpDivChecked, h1, if_neg h3]
  · intro o' t'
    unfold ray_vs_rect
    rw [if_pos ⟨rfl, rfl⟩]

theorem ray_vs_rect_eq_combine (o d : Vector) (t : Rect) (px py : Fp × Fp)
    (hd : ¬(d.x = Fp.zero ∧ d.y = Fp.zero))
    (hx : axisSlab d.x o.x t.pos.x t.size.x = some px)
    (hy : axisSlab d.y o.y t.pos.y t.size.y = some py) :
    ray_vs_rect o d t =
      if (sortTimes py).2 ≤ (sortTimes px).1 ∨
          (sortTimes px).2 ≤ (sortTimes py).1 then none
      else if Fp.min (sortTimes px).2 (sortTimes py).2 < Fp.zero then none
      else some ⟨o + Fp.max (sortTimes px).1 (sortTimes py).1 * d,
        selectNormal (sortTimes px).1 (sortTimes py).1 d.x d.y,
        Fp.max (sortTimes px).1 (sortTimes py).1⟩ := by
  unfold ray_vs_rect
  rw [if_neg hd, hx, hy]

/-- C1: once both per-axis slab computations have produced entry/exit
times (and with those times sorted so that near ≤ far per axis),
`ray_vs_rect` misses exactly when `time_near.x ≥ time_far.y` or
`time_near.y ≥ time_far.x` or `min(time_far.x, time_far.y) < 0`;
otherwise it returns a result with
`closest_time = max(time_near.x, time_near.y)` — unclamped — and
`contact_point = ray_origin + closest_time * ray_direction`. -/
theorem spec_c1_combination (o d : Vector) (t : Rect) (px py : Fp × Fp)
    (hd : ¬(d.x = Fp.zero ∧ d.y = Fp.zero))
    (hx : axisSlab d.x o.x t.pos.x t.size.x = some px)
    (hy : axisSlab d.y o.y t.pos.y t.size.y = some py) :
    (ray_vs_rect o d t = none ↔
      ((sortTimes py).2 ≤ (sortTimes px).1 ∨
        (sortTimes px).2 ≤ (sortTimes py).1 ∨
        Fp.min (sortTimes px).2 (sortTimes py).2 < Fp.zero)) ∧
    (¬((sortTimes py).2 ≤ (sortTimes px).1 ∨
        (sortTimes px).2 ≤ (sortTimes py).1 ∨
        Fp.min (sortTimes px).2 (sortTimes py).2 < Fp.zero) →
      ∃ r, ray_vs_rect o d t = some r ∧
        r.closest_time = Fp.max (sortTimes px).1 (sortTimes py).1 ∧
        r.contact_point =
          o + Fp.max (sortTimes px).1 (sortTimes py).1 * d) := by
  rw [ray_vs_rect_eq_combine o d t px py hd hx hy]
  by_cases h1 : (sortTimes py).2 ≤ (sortTimes px).1 ∨
      (sortTimes px).2 ≤ (sortTimes py).1
  · rw [if_pos h1]
    refine ⟨⟨fun _ => ?_, fun _ => rfl⟩, fun hmiss => ?_⟩
    · rcases h1 with h | h
      · exact Or.inl h
      · exact Or.inr (Or.inl h)
    · rcases h1 with h | h
      · exact absurd (Or.inl h) hmiss
      · exact absurd (Or.inr (Or.inl h)) hmiss
  · rw [if_neg h1]
    by_cases h2 : Fp.min (sortTimes px).2 (sortTimes py).2 < Fp.zero
    · rw [if_pos h2]
      exact ⟨⟨fun _ => Or.inr (Or.inr h2), fun _ => rfl⟩,
        fun hmiss => absurd (Or.inr (Or.inr h2)) hmiss⟩
    · rw [if_neg h2]
      refine ⟨⟨fun hcontra => Option.noConfusion hcontra, fun hor => ?_⟩,
        fun _ =>
          ⟨⟨o + Fp.max (sortTimes px).1 (sortTimes py).1 * d,
            selectNormal (sortTimes px).1 (sortTimes py).1 d.x d.y,
            Fp.max (sortTimes px).1 (sortTimes py).1⟩, rfl, rfl, rfl⟩⟩
      rcases hor with h | h | h
      · exact absurd (Or.inl h) h1
      · exact absurd (Or.inr h) h1
      · exact absurd h h2

/-- Witness for C1: a concrete diagonal ray that reaches the combination
step and hits, with `closest_time` the larger sorted entry time and the
contact point on the ray. -/
theorem spec_c1_witness :
    ∃ r : RayIntersectionResult,
      ray_vs_rect ⟨Fp.ofInt 0, Fp.ofInt 0⟩ ⟨Fp.ofInt 1, Fp.ofInt 1⟩
        ⟨⟨Fp.ofInt 2, Fp.ofInt 1⟩, ⟨Fp.ofInt 2, Fp.ofInt 2⟩⟩ = some r ∧
      r.closest_time =
        Fp.max (sortTimes (Fp.ofInt 2, Fp.ofInt 4)).1
          (sortTimes (Fp.ofInt 1, Fp.ofInt 3)).1 ∧
      r.contact_point = (⟨Fp.ofInt 0, Fp.ofInt 0⟩ : Vector) +
        Fp.max (sortTimes (Fp.ofInt 2, Fp.ofInt 4)).1
          (sortTimes (Fp.ofInt 1, Fp.ofInt 3)).1 *
          (⟨Fp.ofInt 1, Fp.ofInt 1⟩ : Vector) :=
  (spec_c1_combination ⟨Fp.ofInt 0, Fp.ofInt 0⟩ ⟨Fp.ofInt 1, Fp.ofInt 1⟩
    ⟨⟨Fp.ofInt 2, Fp.ofInt 1⟩, ⟨Fp.ofInt 2, Fp.ofInt 2⟩⟩
    (Fp.ofInt 2, Fp.ofInt 4) (Fp.ofInt 1, Fp.ofInt 3)
    (by decide) (by decide) (by decide)).2 (by decide)

theorem selectNormal_mem (a b c e : Fp) :
    selectNormal a b c e = Vector.up ∨ selectNormal a b c e = Vector.down ∨
    selectNormal a b c e = Vector.left ∨ selectNormal a b c e = Vector.right ∨
    selectNormal a b c e = Vector.zero := by
  unfold selectNormal
  cases hc : Fp.cmp a b with
  | lt => by_cases h : Fp.zero < e <;> simp [h]
  | eq => simp [Vector.default]
  | gt => by_cases h : Fp.zero < c <;> simp [h]

/-- C5: whenever `ray_vs_rect` returns `Some`, the contact normal is
exactly one of `up`, `down`, `left`, `right` or the zero vector, chosen by
the larger post-swap entry time: strictly larger x entry time gives
`right`/`left` by the sign of `ray_direction.x`, strictly larger y entry
time gives `up`/`down` by the sign of `ray_direction.y`, and an exact tie
gives the zero vector. -/
theorem spec_c5_contact_normal (o d : Vector) (t : Rect)
    (r : RayIntersectionResult) (h : ray_vs_rect o d t = some r) :
    (r.contact_normal = Vector.up ∨ r.contact_normal = Vector.down ∨
      r.contact_normal = Vector.left ∨ r.contact_normal = Vector.right ∨
      r.contact_normal = Vector.zero) ∧
    (∀ px py, axisSlab d.x o.x t.pos.x t.size.x = some px →
      axisSlab d.y o.y t.pos.y t.size.y = some py →
      (((sortTimes py).1 < (sortTimes px).1 →
        r.contact_normal =
          if Fp.zero < d.x then Vector.right else Vector.left) ∧
      ((sortTimes px).1 < (sortTimes py).1 →
        r.contact_normal =
          if Fp.zero < d.y then Vector.up else Vector.down) ∧
      ((sortTimes px).1 = (sortTimes py).1 →
        r.contact_normal = Vector.zero))) := by
  have hg : ¬(d.x = Fp.zero ∧ d.y = Fp.zero) := by
    intro hg0
    rw [show ray_vs_rect o d t = none from by
      unfold ray_vs_rect; rw [if_pos hg0]] at h
    exact Option.noConfusion h
  cases hx0 : axisSlab d.x o.x t.pos.x t.size.x with
  | none =>
    rw [show ray_vs_rect o d t = none from by
      unfold ray_vs_rect
      rw [if_neg hg, hx0]] at h
    exact Option.noConfusion h
  | some px0 =>
    cases hy0 : axisSlab d.y o.y t.pos.y t.size.y with
    | none =>
      rw [show ray_vs_rect o d t = none from by
        unfold ray_vs_rect
        rw [if_neg hg, hx0, hy0]] at h
      exact Option.noConfusion h
    | some py0 =>
      rw [ray_vs_rect_eq_combine o d t px0 py0 hg hx0 hy0] at h
      split_ifs at h with h1 h2
      have hr :
          r = ⟨o + Fp.max (sortTimes px0).1 (sortTimes py0).1 * d,
            selectNormal (sortTimes px0).1 (sortTimes py0).1 d.x d.y,
            Fp.max (sortTimes px0).1 (sortTimes py0).1⟩ :=
        (Option.some.inj h).symm
      subst hr
      refine ⟨selectNormal_mem _ _ _ _, ?_⟩
      intro px py hx hy
      have hpx : px = px0 := (Option.some.inj hx).symm
      have hpy : py = py0 := (Option.some.inj hy).symm
      subst hpx
      subst hpy
      refine ⟨?_, ?_, ?_⟩
      · intro hgt
        show selectNormal (sortTimes px).1 (sortTimes py).1 d.x d.y = _
        unfold selectNormal
        rw [Fp.cmp_eq_gt.mpr hgt]
      · intro hlt
        show selectNormal (sortTimes px).1 (sortTimes py).1 d.x d.y = _
        unfold selectNormal
        rw [Fp.cmp_eq_lt.mpr hlt]
      · intro heq
        show selectNormal (sortTimes px).1 (sortTimes py).1 d.x d.y = _
        unfold selectNormal
        rw [Fp.cmp_eq_eq.mpr heq]
        rfl

/-- Witness for C5: a concrete hit whose larger entry time is on the x
axis with positive x direction, so the normal is `right` — one of the
five allowed vectors. -/
theorem spec_c5_witness :
    ((⟨⟨Fp.ofInt 1, Fp.ofInt 2⟩, Vector.right, Fp.ofInt 1⟩ :
        RayIntersectionResult).contact_normal = Vector.up ∨
      (⟨⟨Fp.ofInt 1, Fp.ofInt 2⟩, Vector.right, Fp.ofInt 1⟩ :
        RayIntersectionResult).contact_normal = Vector.down ∨
      (⟨⟨Fp.ofInt 1, Fp.ofInt 2⟩, Vector.right, Fp.ofInt 1⟩ :
        RayIntersectionResult).contact_normal = Vector.left ∨
      (⟨⟨Fp.ofInt 1, Fp.ofInt 2⟩, Vector.right, Fp.ofInt 1⟩ :
        RayIntersectionResult).contact_normal = Vector.right ∨
      (⟨⟨Fp.ofInt 1, Fp.ofInt 2⟩, Vector.right, Fp.ofInt 1⟩ :
        RayIntersectionResult).contact_normal = Vector.zero) ∧
    (⟨⟨Fp.ofInt 1, Fp.ofInt 2⟩, Vector.right, Fp.ofInt 1⟩ :
        RayIntersectionResult).contact_normal =
      (if Fp.zero < (⟨Fp.ofInt 1, Fp.ofInt 2⟩ : Vector).x then Vector.right
        else Vector.left) :=
  ⟨(spec_c5_contact_normal ⟨Fp.ofInt 0, Fp.ofInt 0⟩ ⟨Fp.ofInt 1, Fp.ofInt 2⟩
      ⟨⟨Fp.ofInt 1, Fp.ofInt 1⟩, ⟨Fp.ofInt 4, Fp.ofInt 4⟩⟩
      ⟨⟨Fp.ofInt 1, Fp.ofInt 2⟩, Vector.right, Fp.ofInt 1⟩ (by decide)).1,
   ((spec_c5_contact_normal ⟨Fp.ofInt 0, Fp.ofInt 0⟩ ⟨Fp.ofInt 1, Fp.ofInt 2⟩
      ⟨⟨Fp.ofInt 1, Fp.ofInt 1⟩, ⟨Fp.ofInt 4, Fp.ofInt 4⟩⟩
      ⟨⟨Fp.ofInt 1, Fp.ofInt 2⟩, Vector.right, Fp.ofInt 1⟩ (by decide)).2
      (Fp.ofInt 1, Fp.ofInt 5) (⟨32768⟩, ⟨163840⟩)
      (by decide) (by decide)).1 (by decide)⟩

theorem Fp.MIN_raw : Fp.MIN.raw = -2147483648 := rfl

theorem Fp.MAX_raw : Fp.MAX.raw = 2147483647 := rfl

theorem horizontal_time_inv (o : Vector) (L : Fp) (r : Rect) (v : Fp)
    (h : ray_vs_rect_horizontal_time o L r = some v) :
    ¬L = Fp.zero ∧ ¬(o.y < r.pos.y ∨ r.pos.y + r.size.y ≤ o.y) ∧
      v = (if Fp.zero < L then (r.pos.x - o.x) / L
        else (r.pos.x + r.size.x - o.x) / L) := by
  unfold ray_vs_rect_horizontal_time at h
  split_ifs at h with h1 h2 h3
  · exact ⟨h1, h2, by rw [if_pos h3]; exact (Option.some.inj h).symm⟩
  · exact ⟨h1, h2, by rw [if_neg h3]; exact (Option.some.inj h).symm⟩

theorem vertical_time_inv (o : Vector) (L : Fp) (r : Rect) (v : Fp)
    (h : ray_vs_rect_vertical_time o L r = some v) :
    ¬L = Fp.zero ∧ ¬(o.x < r.pos.x ∨ r.pos.x + r.size.x < o.x) ∧
      v = (if Fp.zero < L then (r.pos.y - o.y) / L
        else (r.pos.y + r.size.y - o.y) / L) := by
  unfold ray_vs_rect_vertical_time at h
  split_ifs at h with h1 h2 h3
  · exact ⟨h1, h2, by rw [if_pos h3]; exact (Option.some.inj h).symm⟩
  · exact ⟨h1, h2, by rw [if_neg h3]; exact (Option.some.inj h).symm⟩

/-- C7 counterexample: origin rectangle at `(0, 3)` with size `(1, 1)`,
target at `(2, 1)` with size `(1, 2)`, `dx = 2`.  The ray origin
`origin.pos + origin.size = (1, 4)` sits exactly on the top edge of the
expanded rectangle; `swept_rect_vs_rect_horizontal_time` rejects it
(half-open orthogonal check) while the `[0, 1)`-filtered closest time of
`ray_vs_rect` on the same expanded rectangle (closed check) is
`some 0.5`, so the two sides of the claimed equality differ. -/
theorem spec_c7_counterexample :
    swept_rect_vs_rect_horizontal_time
        ⟨⟨Fp.ofInt 0, Fp.ofInt 3⟩, ⟨Fp.ofInt 1, Fp.ofInt 1⟩⟩
        ⟨⟨Fp.ofInt 2, Fp.ofInt 1⟩, ⟨Fp.ofInt 1, Fp.ofInt 2⟩⟩ (Fp.ofInt 2) =
      none ∧
    Option.bind
        (ray_vs_rect
          ((⟨⟨Fp.ofInt 0, Fp.ofInt 3⟩, ⟨Fp.ofInt 1, Fp.ofInt 1⟩⟩ : Rect).pos +
            (⟨⟨Fp.ofInt 0, Fp.ofInt 3⟩, ⟨Fp.ofInt 1, Fp.ofInt 1⟩⟩ : Rect).size)
          ⟨Fp.ofInt 2, Fp.zero⟩
          ⟨(⟨⟨Fp.ofInt 2, Fp.ofInt 1⟩, ⟨Fp.ofInt 1, Fp.ofInt 2⟩⟩ : Rect).pos,
            (⟨⟨Fp.ofInt 2, Fp.ofInt 1⟩, ⟨Fp.ofInt 1, Fp.ofInt 2⟩⟩ : Rect).size +
            (⟨⟨Fp.ofInt 0, Fp.ofInt 3⟩, ⟨Fp.ofInt 1, Fp.ofInt 1⟩⟩ : Rect).size⟩)
        (fun r =>
          if Fp.zero ≤ r.closest_time ∧ r.closest_time < Fp.one then
            some r.closest_time
          else none) =
      some ⟨32768⟩ := by
  refine ⟨rfl, rfl⟩

/-- C7 amended: the axis swept queries match the `[0, 1)`-filtered
`closest_time` of `ray_vs_rect` on the equivalently expanded rectangle
only under alignment side conditions: the inner axis-time query must
succeed (which for the horizontal query forces the ray origin strictly
inside the half-open orthogonal band, excluding the top edge that
`ray_vs_rect`'s closed check accepts), its direct-division time must
coincide with the slab's reciprocal-multiplication near time (the two
fixed-point roundings can differ), the slab pair must already be sorted,
and the slab times must lie strictly between the `MIN`/`MAX` sentinels.
Under those conditions the equality holds on both axes. -/
theorem spec_c7_amended (origin target : Rect) (dx dy nx fx ny fy : Fp) :
    ((axisSlab dx (origin.pos + origin.size).x target.pos.x
        (target.size + origin.size).x = some (nx, fx)) →
      ray_vs_rect_horizontal_time (origin.pos + origin.size) dx
        ⟨target.pos, target.size + origin.size⟩ = some nx →
      nx ≤ fx → Fp.MIN < nx → fx < Fp.MAX →
      swept_rect_vs_rect_horizontal_time origin target dx =
        Option.bind
          (ray_vs_rect (origin.pos + origin.size) ⟨dx, Fp.zero⟩
            ⟨target.pos, target.size + origin.size⟩)
          (fun r =>
            if Fp.zero ≤ r.closest_time ∧ r.closest_time < Fp.one then
              some r.closest_time
            else none)) ∧
    ((axisSlab dy (origin.pos + origin.size).y target.pos.y
        (target.size + origin.size).y = some (ny, fy)) →
      ray_vs_rect_vertical_time (origin.pos + origin.size) dy
        ⟨target.pos, target.size + origin.size⟩ = some ny →
      ny ≤ fy → Fp.MIN < ny → fy < Fp.MAX →
      swept_rect_vs_rect_vertical_time origin target dy =
        Option.bind
          (ray_vs_rect (origin.pos + origin.size) ⟨Fp.zero, dy⟩
            ⟨target.pos, target.size + origin.size⟩)
          (fun r =>
            if Fp.zero ≤ r.closest_time ∧ r.closest_time < Fp.one then
              some r.closest_time
            else none)) := by
  constructor
  · intro hax heq hsort hlo hhi
    obtain ⟨hdx, hband0, -⟩ :=
      horizontal_time_inv (origin.pos + origin.size) dx
        ⟨target.pos, target.size + origin.size⟩ nx heq
    have hband : ¬((origin.pos + origin.size).y < target.pos.y ∨
        target.pos.y + (target.size + origin.size).y ≤
          (origin.pos + origin.size).y) := hband0
    have hyin : ¬((origin.pos + origin.size).y < target.pos.y ∨
        target.pos.y + (target.size + origin.size).y <
          (origin.pos + origin.size).y) := by
      simp only [not_or, Fp.lt_iff, Fp.le_iff] at hband ⊢
      omega
    have hg : ¬((⟨dx, Fp.zero⟩ : Vector).x = Fp.zero ∧
        (⟨dx, Fp.zero⟩ : Vector).y = Fp.zero) := fun hc => hdx hc.1
    have hslaby : axisSlab Fp.zero (origin.pos + origin.size).y
        target.pos.y (target.size + origin.size).y =
        some (Fp.MIN, Fp.MAX) := by
      rw [axisSlab_zero, if_neg hyin]
    have hs1 : sortTimes (nx, fx) = (nx, fx) := by
      unfold sortTimes
      rw [if_neg]
      simp only [Fp.lt_iff, Fp.le_iff] at hsort ⊢
      omega
    have hs2 : sortTimes (Fp.MIN, Fp.MAX) = (Fp.MIN, Fp.MAX) := by
      unfold sortTimes
      rw [if_neg]
      simp only [Fp.lt_iff, Fp.MIN_raw, Fp.MAX_raw]
      omega
    have hLHS : swept_rect_vs_rect_horizontal_time origin target dx =
        (if Fp.zero ≤ nx ∧ nx < Fp.one then some nx else none) := by
      have h0 : swept_rect_vs_rect_horizontal_time origin target dx =
          (match ray_vs_rect_horizontal_time (origin.pos + origin.size) dx
              ⟨target.pos, target.size + origin.size⟩ with
            | some time =>
              if Fp.zero ≤ time ∧ time < Fp.one then some time else none
            | none => none) := rfl
      rw [h0, heq]
    have hA : ¬((sortTimes (Fp.MIN, Fp.MAX)).2 ≤ (sortTimes (nx, fx)).1 ∨
        (sortTimes (nx, fx)).2 ≤ (sortTimes (Fp.MIN, Fp.MAX)).1) := by
      rw [hs1, hs2]
      simp only [Fp.le_iff, Fp.lt_iff] at hsort hlo hhi ⊢
      omega
    have hmin : Fp.min (sortTimes (nx, fx)).2
        (sortTimes (Fp.MIN, Fp.MAX)).2 = fx := by
      rw [hs1, hs2]
      show Fp.min fx Fp.MAX = fx
      unfold Fp.min
      rw [if_pos]
      simp only [Fp.le_iff, Fp.lt_iff] at hhi ⊢
      omega
    have hmax : Fp.max (sortTimes (nx, fx)).1
        (sortTimes (Fp.MIN, Fp.MAX)).1 = nx := by
      rw [hs1, hs2]
      show Fp.max nx Fp.MIN = nx
      unfold Fp.max
      rw [if_pos]
      simp only [Fp.le_iff, Fp.lt_iff] at hlo ⊢
      omega
    rw [hLHS,
      ray_vs_rect_eq_combine (origin.pos + origin.size) ⟨dx, Fp.zero⟩
        ⟨target.pos, target.size + origin.size⟩ (nx, fx) (Fp.MIN, Fp.MAX)
        hg hax hslaby,
      if_neg hA, hmin, hmax]
    by_cases hf : fx < Fp.zero
    · rw [if_pos hf]
      have hno : ¬(Fp.zero ≤ nx ∧ nx < Fp.one) := by
        simp only [Fp.le_iff, Fp.lt_iff] at hsort hf ⊢
        intro hc
        omega
      rw [if_neg hno]
      rfl
    · rw [if_neg hf]
      rfl
  · intro hax heq hsort hlo hhi
    obtain ⟨hdy, hband0, -⟩ :=
      vertical_time_inv (origin.pos + origin.size) dy
        ⟨target.pos, target.size + origin.size⟩ ny heq
    have hxin : ¬((origin.pos + origin.size).x < target.pos.x ∨
        target.pos.x + (target.size + origin.size).x <
          (origin.pos + origin.size).x) := hband0
    have hg : ¬((⟨Fp.zero, dy⟩ : Vector).x = Fp.zero ∧
        (⟨Fp.zero, dy⟩ : Vector).y = Fp.zero) := fun hc => hdy hc.2
    have hslabx : axisSlab Fp.zero (origin.pos + origin.size).x
        target.pos.x (target.size + origin.size).x =
        some (Fp.MIN, Fp.MAX) := by
      rw [axisSlab_zero, if_neg hxin]
    have hs1 : sortTimes (ny, fy) = (ny, fy) := by
      unfold sortTimes
      rw [if_neg]
      simp only [Fp.lt_iff, Fp.le_iff] at hsort ⊢
      omega
    have hs2 : sortTimes (Fp.MIN, Fp.MAX) = (Fp.MIN, Fp.MAX) := by
      unfold sortTimes
      rw [if_neg]
      simp only [Fp.lt_iff, Fp.MIN_raw, Fp.MAX_raw]
      omega
    have hLHS : swept_rect_vs_rect_vertical_time origin target dy =
        (if Fp.zero ≤ ny ∧ ny < Fp.one then some ny else none) := by
      have h0 : swept_rect_vs_rect_vertical_time origin target dy =
          (match ray_vs_rect_vertical_time (origin.pos + origin.size) dy
              ⟨target.pos, target.size + origin.size⟩ with
            | some time =>
              if Fp.zero ≤ time ∧ time < Fp.one then some time else none
            | none => none) := rfl
      rw [h0, heq]
    have hA : ¬((sortTimes (ny, fy)).2 ≤ (sortTimes (Fp.MIN, Fp.MAX)).1 ∨
        (sortTimes (Fp.MIN, Fp.MAX)).2 ≤ (sortTimes (ny, fy)).1) := by
      rw [hs1, hs2]
      simp only [Fp.le_iff, Fp.lt_iff] at hsort hlo hhi ⊢
      omega
    have hmin : Fp.min (sortTimes (Fp.MIN, Fp.MAX)).2
        (sortTimes (ny, fy)).2 = fy := by
      rw [hs1, hs2]
      show Fp.min Fp.MAX fy = fy
      unfold Fp.min
      rw [if_neg]
      simp only [Fp.le_iff, Fp.lt_iff] at hhi ⊢
      omega
    have hmax : Fp.max (sortTimes (Fp.MIN, Fp.MAX)).1
        (sortTimes (ny, fy)).1 = ny := by
      rw [hs1, hs2]
      show Fp.max Fp.MIN ny = ny
      unfold Fp.max
      rw [if_neg]
      simp only [Fp.le_iff, Fp.lt_iff] at hlo ⊢
      omega
    rw [hLHS,
      ray_vs_rect_eq_combine (origin.pos + origin.size) ⟨Fp.zero, dy⟩
        ⟨target.pos, target.size + origin.size⟩ (Fp.MIN, Fp.MAX) (ny, fy)
        hg hslabx hax,
      if_neg hA, hmin, hmax]
    by_cases hf : fy < Fp.zero
    · rw [if_pos hf]
      have hno : ¬(Fp.zero ≤ ny ∧ ny < Fp.one) := by
        simp only [Fp.le_iff, Fp.lt_iff] at hsort hf ⊢
        intro hc
        omega
      rw [if_neg hno]
      rfl
    · rw [if_neg hf]
      rfl

/-- Witness for the amended C7 on both axes at concrete aligned inputs. -/
theorem spec_c7_witness :
    swept_rect_vs_rect_horizontal_time
        ⟨⟨Fp.ofInt 0, Fp.ofInt 0⟩, ⟨Fp.ofInt 1, Fp.ofInt 1⟩⟩
        ⟨⟨Fp.ofInt 2, Fp.ofInt 0⟩, ⟨Fp.ofInt 1, Fp.ofInt 2⟩⟩ (Fp.ofInt 2) =
      Option.bind
        (ray_vs_rect
          ((⟨⟨Fp.ofInt 0, Fp.ofInt 0⟩, ⟨Fp.ofInt 1, Fp.ofInt 1⟩⟩ : Rect).pos +
            (⟨⟨Fp.ofInt 0, Fp.ofInt 0⟩, ⟨Fp.ofInt 1, Fp.ofInt 1⟩⟩ : Rect).size)
          ⟨Fp.ofInt 2, Fp.zero⟩
          ⟨(⟨⟨Fp.ofInt 2, Fp.ofInt 0⟩, ⟨Fp.ofInt 1, Fp.ofInt 2⟩⟩ : Rect).pos,
            (⟨⟨Fp.ofInt 2, Fp.ofInt 0⟩, ⟨Fp.ofInt 1, Fp.ofInt 2⟩⟩ : Rect).size +
            (⟨⟨Fp.ofInt 0, Fp.ofInt 0⟩, ⟨Fp.ofInt 1, Fp.ofInt 1⟩⟩ : Rect).size⟩)
        (fun r =>
          if Fp.zero ≤ r.closest_time ∧ r.closest_time < Fp.one then
            some r.closest_time
          else none) ∧
    swept_rect_vs_rect_vertical_time
        ⟨⟨Fp.ofInt 0, Fp.ofInt 0⟩, ⟨Fp.ofInt 1, Fp.ofInt 1⟩⟩
        ⟨⟨Fp.ofInt 0, Fp.ofInt 2⟩, ⟨Fp.ofInt 2, Fp.ofInt 1⟩⟩ (Fp.ofInt 2) =
      Option.bind
        (ray_vs_rect
          ((⟨⟨Fp.ofInt 0, Fp.ofInt 0⟩, ⟨Fp.ofInt 1, Fp.ofInt 1⟩⟩ : Rect).pos +
            (⟨⟨Fp.ofInt 0, Fp.ofInt 0⟩, ⟨Fp.ofInt 1, Fp.ofInt 1⟩⟩ : Rect).size)
          ⟨Fp.zero, Fp.ofInt 2⟩
          ⟨(⟨⟨Fp.ofInt 0, Fp.ofInt 2⟩, ⟨Fp.ofInt 2, Fp.ofInt 1⟩⟩ : Rect).pos,
            (⟨⟨Fp.ofInt 0, Fp.ofInt 2⟩, ⟨Fp.ofInt 2, Fp.ofInt 1⟩⟩ : Rect).size +
            (⟨⟨Fp.ofInt 0, Fp.ofInt 0⟩, ⟨Fp.ofInt 1, Fp.ofInt 1⟩⟩ : Rect).size⟩)
        (fun r =>
          if Fp.zero ≤ r.closest_time ∧ r.closest_time < Fp.one then
            some r.closest_time
          else none) :=
  ⟨(spec_c7_amended ⟨⟨Fp.ofInt 0, Fp.ofInt 0⟩, ⟨Fp.ofInt 1, Fp.ofInt 1⟩⟩
      ⟨⟨Fp.ofInt 2, Fp.ofInt 0⟩, ⟨Fp.ofInt 1, Fp.ofInt 2⟩⟩
      (Fp.ofInt 2) Fp.zero ⟨32768⟩ ⟨98304⟩ Fp.zero Fp.zero).1
      (by decide) (by decide) (by decide) (by decide) (by decide),
   (spec_c7_amended ⟨⟨Fp.ofInt 0, Fp.ofInt 0⟩, ⟨Fp.ofInt 1, Fp.ofInt 1⟩⟩
      ⟨⟨Fp.ofInt 0, Fp.ofInt 2⟩, ⟨Fp.ofInt 2, Fp.ofInt 1⟩⟩
      Fp.zero (Fp.ofInt 2) Fp.zero Fp.zero ⟨32768⟩ ⟨98304⟩).2
      (by decide) (by decide) (by decide) (by decide) (by decide)⟩

theorem ray_vs_rect_slab_none (o d : Vector) (t : Rect)
    (hg : ¬(d.x = Fp.zero ∧ d.y = Fp.zero))
    (h : axisSlab d.x o.x t.pos.x t.size.x = none ∨
      axisSlab d.y o.y t.pos.y t.size.y = none) :
    ray_vs_rect o d t = none := by
  unfold ray_vs_rect
  rw [if_neg hg]
  rcases h with h | h
  · rw [h]
  · rw [h]
    cases axisSlab d.x o.x t.pos.x t.size.x <;> rfl

theorem selectNormal_swap (a b c e : Fp) :
    selectNormal b a e c = swapVec (selectNormal a b c e) := by
  unfold selectNormal
  rcases lt_trichotomy a.raw b.raw with h | h | h
  · rw [Fp.cmp_eq_gt.mpr (Fp.lt_iff.mpr h), Fp.cmp_eq_lt.mpr (Fp.lt_iff.mpr h)]
    by_cases he : Fp.zero < e
    · rw [if_pos he, if_pos he]
      rfl
    · rw [if_neg he, if_neg he]
      rfl
  · rw [Fp.cmp_eq_eq.mpr (Fp.ext_iff.mpr h.symm),
      Fp.cmp_eq_eq.mpr (Fp.ext_iff.mpr h)]
    rfl
  · rw [Fp.cmp_eq_lt.mpr (Fp.lt_iff.mpr h), Fp.cmp_eq_gt.mpr (Fp.lt_iff.mpr h)]
    by_cases hc : Fp.zero < c
    · rw [if_pos hc, if_pos hc]
      rfl
    · rw [if_neg hc, if_neg hc]
      rfl

/-- C10: `ray_vs_rect` is symmetric under transposing the two axes —
swapping the components of the origin, the direction, and the rectangle's
`pos` and `size` misses exactly when the original does, and on a hit
returns the same `closest_time`, the transposed contact point, and the
contact normal with `up`/`right` exchanged, `down`/`left` exchanged and
zero unchanged. -/
theorem spec_c10_transpose (o d : Vector) (t : Rect) :
    ray_vs_rect (swapVec o) (swapVec d) (swapRect t) =
      Option.map swapResult (ray_vs_rect o d t) ∧
    swapVec Vector.up = Vector.right ∧ swapVec Vector.right = Vector.up ∧
    swapVec Vector.down = Vector.left ∧ swapVec Vector.left = Vector.down ∧
    swapVec Vector.zero = Vector.zero := by
  refine ⟨?_, rfl, rfl, rfl, rfl, rfl⟩
  by_cases hg : d.x = Fp.zero ∧ d.y = Fp.zero
  · have h1 : ray_vs_rect o d t = none := by
      unfold ray_vs_rect
      rw [if_pos hg]
    have h2 : ray_vs_rect (swapVec o) (swapVec d) (swapRect t) = none := by
      unfold ray_vs_rect
      rw [if_pos (show (swapVec d).x = Fp.zero ∧ (swapVec d).y = Fp.zero from
        ⟨hg.2, hg.1⟩)]
    rw [h1, h2]
    rfl
  · have hg' : ¬((swapVec d).x = Fp.zero ∧ (swapVec d).y = Fp.zero) :=
      fun hc => hg ⟨hc.2, hc.1⟩
    cases hx : axisSlab d.x o.x t.pos.x t.size.x with
    | none =>
      rw [ray_vs_rect_slab_none o d t hg (Or.inl hx),
        ray_vs_rect_slab_none (swapVec o) (swapVec d) (swapRect t) hg'
          (Or.inr hx)]
      rfl
    | some px =>
      cases hy : axisSlab d.y o.y t.pos.y t.size.y with
      | none =>
        rw [ray_vs_rect_slab_none o d t hg (Or.inr hy),
          ray_vs_rect_slab_none (swapVec o) (swapVec d) (swapRect t) hg'
            (Or.inl hy)]
        rfl
      | some py =>
        have hy' : axisSlab (swapVec d).x (swapVec o).x (swapRect t).pos.x
            (swapRect t).size.x = some py := hy
        have hx' : axisSlab (swapVec d).y (swapVec o).y (swapRect t).pos.y
            (swapRect t).size.y = some px := hx
        rw [ray_vs_rect_eq_combine o d t px py hg hx hy,
          ray_vs_rect_eq_combine (swapVec o) (swapVec d) (swapRect t) py px
            hg' hy' hx',
          Fp.min_comm (sortTimes py).2 (sortTimes px).2,
          Fp.max_comm (sortTimes py).1 (sortTimes px).1]
        simp only [swapVec_x, swapVec_y]
        rw [selectNormal_swap (sortTimes px).1 (sortTimes py).1 d.x d.y]
        by_cases h1 : (sortTimes py).2 ≤ (sortTimes px).1 ∨
            (sortTimes px).2 ≤ (sortTimes py).1
        · rw [if_pos (Or.symm h1), if_pos h1]
          rfl
        · rw [if_neg (fun hc => h1 (Or.symm hc)), if_neg h1]
          by_cases h2 : Fp.min (sortTimes px).2 (sortTimes py).2 < Fp.zero
          · rw [if_pos h2, if_pos h2]
            rfl
          · rw [if_neg h2, if_neg h2]
            rfl

/-- Witness for C2 at a concrete input where the inner hit occurs exactly
at `t = 0`: the lower bound of the acceptance window is included and the
inner result is returned unchanged. -/
theorem spec_c2_witness :
    swept_rect_vs_rect ⟨⟨Fp.ofInt 0, Fp.ofInt 0⟩, ⟨Fp.ofInt 2, Fp.ofInt 2⟩⟩
        ⟨⟨Fp.ofInt 3, Fp.ofInt 1⟩, ⟨Fp.ofInt 2, Fp.ofInt 2⟩⟩
        ⟨Fp.ofInt 4, Fp.ofInt 4⟩ =
      some ⟨⟨Fp.ofInt 2, Fp.ofInt 2⟩, Vector.right, Fp.ofInt 0⟩ :=
  (spec_c2_swept_wrapper ⟨⟨Fp.ofInt 0, Fp.ofInt 0⟩, ⟨Fp.ofInt 2, Fp.ofInt 2⟩⟩
    ⟨⟨Fp.ofInt 3, Fp.ofInt 1⟩, ⟨Fp.ofInt 2, Fp.ofInt 2⟩⟩
    ⟨Fp.ofInt 4, Fp.ofInt 4⟩
    ⟨⟨Fp.ofInt 2, Fp.ofInt 2⟩, Vector.right, Fp.ofInt 0⟩).mpr
    ⟨by decide, by decide, by decide⟩
